import Mathlib

/-! timezone.io team page controller (`app/apps/team.js`)

A shallow embedding of the browser-side controller of the team page: the
application state object `appState`, the module variable
`autoUpdateIntervalId`, and the parts of the browser the controller talks to
(render sink, history, interval timers, the window focus hook, the network),
all gathered in one record `World` that every function of the module
transforms.

Conventions of the embedding:

* JavaScript strings are lists of characters (`Str`); only concatenation,
  first-occurrence search and dropping the first unit are used.
* A `moment` is its local-time millisecond count, for a zone with a fixed
  offset (no daylight-saving jumps), so that the `hour`/`minute` getters and
  setters and `add` are plain integer arithmetic.
* The real clock (`moment()`) is an explicit argument `now`.
* Numbers sent as scrub positions are rationals.
* Modules required by `team.js` whose source is not part of the development
  (`utils/transform.js`, `utils/time.js`) are passed in as `Utils`, and so is
  the browser's URL parser, which decides what `window.location.pathname`
  reads after a `history.pushState` call.
-/

namespace TimezoneIO

/-! ## Strings -/

/-- JavaScript strings as sequences of code units. -/
abbrev Str := List Char

/-- The string literal `'app'`, the base view. -/
def appView : Str := ['a', 'p', 'p']

/-- The expression `s.replace(pat, '')` for a string pattern `pat`: the first
occurrence of `pat` in `s` is removed; `s` is returned as it is when `pat`
does not occur. -/
def replaceFirstWithEmpty (pat : Str) : Str → Str
  | [] => []
  | c :: cs =>
    if pat.isPrefixOf (c :: cs) then (c :: cs).drop pat.length
    else c :: replaceFirstWithEmpty pat cs

/-- The expression `s.substr(1)`. -/
def substr1 (s : Str) : Str := s.drop 1

/-! ## Moments -/

/-- A `moment` value: local-time milliseconds since the epoch. -/
structure Moment where
  valueOf : Int
  deriving DecidableEq, Repr

namespace Moment

/-- Getter `m.hour()`. -/
def hour (m : Moment) : Int := (m.valueOf / 3600000) % 24

/-- Getter `m.minute()` (alias `m.minutes()`). -/
def minute (m : Moment) : Int := (m.valueOf / 60000) % 60

/-- Getter `m.second()`. -/
def second (m : Moment) : Int := (m.valueOf / 1000) % 60

/-- Getter `m.millisecond()`. -/
def millisecond (m : Moment) : Int := m.valueOf % 1000

/-- Day number of the calendar date of `m`. -/
def date (m : Moment) : Int := m.valueOf / 86400000

/-- Setter `m.hour(h)`: the hour field is replaced, the others are kept. -/
def setHour (m : Moment) (h : Int) : Moment :=
  ⟨m.valueOf + (h - m.hour) * 3600000⟩

/-- Setter `m.minute(n)`: the minute field is replaced, the others are kept. -/
def setMinute (m : Moment) (n : Int) : Moment :=
  ⟨m.valueOf + (n - m.minute) * 60000⟩

/-- The time value a `Date` keeps when it is set to `x` milliseconds: the
fraction is cut off, towards zero. -/
def timeClip (x : ℚ) : Int := if x < 0 then Int.ceil x else Int.floor x

/-- The call `m.add(x, 'm')`: the millisecond count plus `x` minutes, set on the
underlying `Date`, which cuts off the fraction of a millisecond. -/
def add (m : Moment) (x : ℚ) : Moment := ⟨timeClip ((m.valueOf : ℚ) + x * 60000)⟩

/-- The moment with the same date, hour and minute and with seconds and
milliseconds zero. -/
def startOfMinute (m : Moment) : Moment := ⟨m.valueOf - m.valueOf % 60000⟩

end Moment

/-! ## Application state -/

/-- Team metadata carried by `appState.team`. -/
structure Team where
  _id : Str
  url : Str
  deriving DecidableEq, Repr

/-- A team member. -/
structure Person where
  name : Str
  tz : Str
  deriving DecidableEq, Repr

/-- The value of `appState.timezones`: for each person a localized time. -/
abbrev Projections := List (Person × Str)

/-- The snapshot `window.appData` supplied by the page. -/
structure AppData where
  time : Moment
  isCurrentTime : Bool
  timeFormat : Nat
  currentView : Str
  team : Team
  people : List Person
  csrf_token : Str
  deriving DecidableEq, Repr

/-- The object `appState`. -/
structure AppState where
  time : Moment
  isCurrentTime : Bool
  timeFormat : Nat
  currentView : Str
  team : Team
  people : List Person
  timezones : Projections
  csrf_token : Str
  deriving DecidableEq, Repr

/-- What the module takes from outside: the modules `utils/transform.js` and
`utils/time.js`, and the browser's URL parser. `pathname current url` is the
value `window.location.pathname` reads once `history.pushState` was given `url`
while the pathname was `current`. -/
structure Utils where
  transform : Moment → List Person → Projections
  roundToQuarterHour : Int → Int
  pathname : Str → Str → Str

/-! ## Network -/

/-- Primitive JSON values held by the fields of an info object. -/
inductive JsVal where
  | null
  | bool (b : Bool)
  | num (n : Int)
  | str (s : Str)
  deriving DecidableEq, Repr

/-- A plain object: its own properties in insertion order. -/
abbrev JsObject := List (Str × JsVal)

/-- Property assignment `o[k] = v`: an existing property keeps its place and
takes the new value, a new property goes last. -/
def JsObject.set : JsObject → Str → JsVal → JsObject
  | [], k, v => [(k, v)]
  | (k1, v1) :: rest, k, v =>
    if k1 = k then (k, v) :: rest else (k1, v1) :: JsObject.set rest k v

/-- A request handed to `fetch`. -/
structure Request where
  url : Str
  method : Str
  headers : List (Str × Str)
  credentials : Str
  body : JsObject
  deriving DecidableEq, Repr

/-- How a `fetch` call ends: the promise rejects on a network error, and
fulfils with the response for every HTTP status. `json` is the result of
parsing the response body, `none` when the body is not JSON. -/
inductive FetchOutcome where
  | networkError (message : Str)
  | response (status : Nat) (json : Option JsObject)
  deriving DecidableEq, Repr

/-- A settled promise: `ok` is fulfilled with a value, `error` is rejected. -/
abbrev Settled := Except Str JsObject

/-! ## The controller and its host -/

/-- Functions of the module that are installed as callbacks. -/
inductive Callback where
  | updateToCurrentTime
  deriving DecidableEq, Repr

/-- Everything the module reads and writes. -/
structure World where
  /-- The object `appState`. -/
  appState : AppState
  /-- The module variable `autoUpdateIntervalId`. -/
  autoUpdateIntervalId : Option Nat
  /-- Number of `React.render` calls made so far. -/
  renders : Nat
  /-- The value of `window.location.pathname`. -/
  location : Str
  /-- Paths given to `history.pushState`, newest first. -/
  pushed : List Str
  /-- Identifiers of the interval timers that are active; each one calls
  `updateToCurrentTime`. -/
  intervals : List Nat
  /-- Identifier the next `setInterval` call returns. -/
  nextIntervalId : Nat
  /-- The property `window.onfocus`. -/
  onfocus : Option Callback
  /-- Requests issued through `fetch`, oldest first. -/
  requests : List Request
  /-- Whether the `.time-slider` element has been given the focus. -/
  sliderFocused : Bool
  /-- Number of `preventDefault` calls made on key events. -/
  defaultsPrevented : Nat
  deriving DecidableEq, Repr

/-- The function `renderApp`. -/
def renderApp (w : World) : World := { w with renders := w.renders + 1 }

/-- The host function `setInterval` with `updateToCurrentTime` as callback;
returns the identifier of the new timer. -/
def setInterval (w : World) : Nat × World :=
  (w.nextIntervalId,
    { w with intervals := w.intervals ++ [w.nextIntervalId],
             nextIntervalId := w.nextIntervalId + 1 })

/-- The host function `clearInterval`; `null` and unknown identifiers are
ignored. -/
def clearInterval (id : Option Nat) (w : World) : World :=
  match id with
  | none => w
  | some i => { w with intervals := w.intervals.filter (fun j => j != i) }

/-- The function `enableAutoUpdate`. -/
def enableAutoUpdate (w : World) : World :=
  let r := setInterval w
  { r.2 with autoUpdateIntervalId := some r.1,
             onfocus := some Callback.updateToCurrentTime }

/-- The function `disableAutoUpdate`. -/
def disableAutoUpdate (w : World) : World :=
  { clearInterval w.autoUpdateIntervalId w with onfocus := none }

/-- The function `updateToCurrentTime`, with `now` the value of `moment()`. -/
def updateToCurrentTime (now : Moment) (w : World) : World :=
  if now.hour = w.appState.time.hour ∧ now.minute = w.appState.time.minute then w
  else
    renderApp
      { w with appState :=
          { w.appState with
              time := (w.appState.time.setHour now.hour).setMinute now.minute,
              isCurrentTime := true } }

/-- The function `updateTimeAsPercent`, with `now` the value of `moment()`. -/
def updateTimeAsPercent (u : Utils) (now : Moment) (percentDelta : ℚ) (w : World) : World :=
  if percentDelta = 0 then updateToCurrentTime now (enableAutoUpdate w)
  else
    let deltaMinutes : ℚ := 720 * percentDelta
    let now1 := now.add deltaMinutes
    let minutes := now1.minute
    let now2 := now1.add ((u.roundToQuarterHour minutes - minutes : Int) : ℚ)
    renderApp { w with appState := { w.appState with time := now2, isCurrentTime := false } }

/-- The promise chain `fetch(..).then(json).then(function (res) { return res; })`
as a function of how the `fetch` call ends. -/
def saveTeamInfoPromise : FetchOutcome → Settled
  | FetchOutcome.networkError message => Except.error message
  | FetchOutcome.response _ (some body) => Except.ok body
  | FetchOutcome.response _ none => Except.error ['S', 'y', 'n', 't', 'a', 'x', 'E', 'r', 'r', 'o', 'r']

/-- The property name `_csrf`. -/
def csrfKey : Str := ['_', 'c', 's', 'r', 'f']

/-- The request built by `saveTeamInfo`. -/
def saveTeamInfoRequest (s : AppState) (info : JsObject) : Request :=
  { url := ['/', 'a', 'p', 'i', '/', 't', 'e', 'a', 'm', '/'] ++ s.team._id,
    method := ['P', 'U', 'T'],
    headers :=
      [("Accept".toList, "application/json".toList),
       ("Content-Type".toList, "application/json".toList)],
    credentials := "include".toList,
    body := JsObject.set info csrfKey (JsVal.str s.csrf_token) }

/-- The function `saveTeamInfo`: the world after the call, and the promise it
returns. -/
def saveTeamInfo (info : JsObject) (w : World) : World × (FetchOutcome → Settled) :=
  ({ w with requests := w.requests ++ [saveTeamInfoRequest w.appState info] },
    saveTeamInfoPromise)

/-- The path `updateCurrentView` pushes for `view`. -/
def viewPath (url : Str) (view : Str) : Str :=
  if view ≠ appView then url ++ '/' :: view else url

/-- The host function `history.pushState({}, null, path)`: the argument is
recorded, and the pathname becomes what the URL parser makes of it. -/
def pushState (u : Utils) (path : Str) (w : World) : World :=
  { w with location := u.pathname w.location path, pushed := path :: w.pushed }

/-- The function `updateCurrentView`. -/
def updateCurrentView (u : Utils) (view : Str) (shouldUpdateUrl : Bool) (w : World) : World :=
  let w1 := { w with appState := { w.appState with currentView := view } }
  let w2 := if shouldUpdateUrl then pushState u (viewPath w1.appState.team.url view) w1 else w1
  renderApp w2

/-- The view `handlePopState` computes from a path. -/
def pathView (url : Str) (path : Str) : Str :=
  let segment := replaceFirstWithEmpty url path
  if segment.length ≠ 0 then substr1 segment else appView

/-- The function `handlePopState`. -/
def handlePopState (u : Utils) (w : World) : World :=
  let path := w.location
  updateCurrentView u (pathView w.appState.team.url path) false w

/-- Key codes of the arrow keys. -/
def KEY_LEFT : Nat := 37

/-- Key code of the right arrow. -/
def KEY_RIGHT : Nat := 39

/-- The `keyup` listener. -/
def onKeyup (keyCode : Nat) (w : World) : World :=
  if keyCode = KEY_RIGHT ∨ keyCode = KEY_LEFT then
    let w1 := { w with defaultsPrevented := w.defaultsPrevented + 1 }
    let w2 := disableAutoUpdate w1
    let w3 := { w2 with sliderFocused := true }
    renderApp w3
  else w

/-- Payloads delivered by `AppDispatcher`. -/
inductive Action where
  | CHANGE_TIME_FORMAT (value : Nat)
  | USE_CURRENT_TIME
  | ADJUST_TIME_DISPLAY (value : ℚ)
  | CLOSE_MODAL
  | SHOW_MODAL (value : Str)
  | SAVE_TEAM_INFO (value : JsObject)
  | unrecognized (actionType : Nat)
  deriving DecidableEq, Repr

/-- The handler registered with `AppDispatcher`. -/
def onAction (u : Utils) (now : Moment) (a : Action) (w : World) : World :=
  match a with
  | Action.CHANGE_TIME_FORMAT value =>
    renderApp { w with appState := { w.appState with timeFormat := value } }
  | Action.USE_CURRENT_TIME => enableAutoUpdate (updateToCurrentTime now w)
  | Action.ADJUST_TIME_DISPLAY value => updateTimeAsPercent u now value (disableAutoUpdate w)
  | Action.CLOSE_MODAL => updateCurrentView u appView true w
  | Action.SHOW_MODAL value => updateCurrentView u value true w
  | Action.SAVE_TEAM_INFO value => (saveTeamInfo value w).1
  | Action.unrecognized _ => w

/-- What the host can deliver to the module. -/
inductive Event where
  | keyup (keyCode : Nat)
  | popstate (pathname : Str)
  | dispatch (a : Action)
  | tick (id : Nat)
  | focus
  | fetchSettled (outcome : FetchOutcome)
  deriving DecidableEq, Repr

/-- One event handled to completion; `now` is the real clock at that time. -/
def step (u : Utils) (w : World) (e : Moment × Event) : World :=
  match e.2 with
  | Event.keyup keyCode => onKeyup keyCode w
  | Event.popstate pathname => handlePopState u { w with location := pathname }
  | Event.dispatch a => onAction u e.1 a w
  | Event.tick id => if id ∈ w.intervals then updateToCurrentTime e.1 w else w
  | Event.focus =>
    match w.onfocus with
    | some Callback.updateToCurrentTime => updateToCurrentTime e.1 w
    | none => w
  | Event.fetchSettled _ => w

/-- The module body run at page load, with `pathname` the page's path. -/
def load (u : Utils) (appData : AppData) (pathname : Str) : World :=
  let appState : AppState :=
    { time := appData.time,
      isCurrentTime := appData.isCurrentTime,
      timeFormat := appData.timeFormat,
      currentView := appData.currentView,
      team := appData.team,
      people := appData.people,
      timezones := u.transform appData.time appData.people,
      csrf_token := appData.csrf_token }
  let w0 : World :=
    { appState := appState, autoUpdateIntervalId := none, renders := 0,
      location := pathname, pushed := [], intervals := [], nextIntervalId := 0,
      onfocus := none, requests := [], sliderFocused := false, defaultsPrevented := 0 }
  enableAutoUpdate (renderApp w0)

/-- The world after the page has loaded and the given events were handled in
order. -/
def run (u : Utils) (appData : AppData) (pathname : Str) (es : List (Moment × Event)) : World :=
  es.foldl (step u) (load u appData pathname)

/-- Whether a path is the base path itself or the base path followed by `/`
and a view other than `'app'`. -/
def IsViewPath (url path : Str) : Prop :=
  path = url ∨ ∃ s : Str, s ≠ appView ∧ path = url ++ '/' :: s

/-! ## User entity (`app/models/user.js`) -/

/-- A user document: the paths of `userSchema`, the document id, and the
property `_password` kept by the `password` virtual (`none` while unset). -/
structure User where
  _id : Str
  username : Str
  name : Str
  email : Str
  provider : Str
  hashedPassword : Str
  salt : Str
  inviteCode : Str
  avatar : Str
  location : Str
  tz : Str
  teams : List Str
  createdAt : Int
  updatedAt : Int
  _password : Option Str
  deriving DecidableEq, Repr

/-- The type of `crypto.createHmac('sha1', key).update(text).digest('hex')` as a
function of key and text; `none` when the call throws. -/
abbrev Hmac := Str → Str → Option Str

/-- The method `encryptPassword`; an absent argument is `none`. -/
def encryptPassword (hmac : Hmac) (self : User) (password : Option Str) : Str :=
  match password with
  | none => []
  | some [] => []
  | some (c :: cs) =>
    match hmac self.salt (c :: cs) with
    | some digest => digest
    | none => []

/-- The method `authenticate`. -/
def authenticate (hmac : Hmac) (self : User) (plainText : Option Str) : Bool :=
  decide (encryptPassword hmac self plainText = self.hashedPassword)

/-- The setter of the virtual `password`; `newSalt` is the value `makeSalt()`
returns at the call. -/
def setPassword (hmac : Hmac) (newSalt : Str) (password : Option Str) (self : User) : User :=
  let u1 := { self with _password := password }
  let u2 := { u1 with salt := newSalt }
  { u2 with hashedPassword := encryptPassword hmac u2 password }

/-- The getter of the virtual `isRegistered`. -/
def isRegistered (self : User) : Bool := !(self.hashedPassword.isEmpty)

/-- The method `isEmptyUser`. -/
def isEmptyUser (self : User) : Bool := self.hashedPassword.isEmpty

/-- Values found in the plain object of a document. -/
inductive DocVal where
  | undefined
  | bool (b : Bool)
  | str (s : Str)
  | date (t : Int)
  | ids (xs : List Str)
  deriving DecidableEq, Repr

/-- The plain object of a document: its properties in insertion order. -/
abbrev DocObject := List (Str × DocVal)

/-- Property read `o[k]`: `undefined` for a property the object lacks. -/
def DocObject.get (o : DocObject) (k : Str) : DocVal :=
  match List.lookup k o with
  | some v => v
  | none => DocVal.undefined

/-- Property assignment `o[k] = v`. -/
def DocObject.set : DocObject → Str → DocVal → DocObject
  | [], k, v => [(k, v)]
  | (k1, v1) :: rest, k, v =>
    if k1 = k then (k, v) :: rest else (k1, v1) :: DocObject.set rest k v

/-- The array `PUBLIC_FIELDS`. -/
def PUBLIC_FIELDS : List Str :=
  ["_id".toList, "username".toList, "name".toList, "avatar".toList, "location".toList,
    "tz".toList, "isRegistered".toList]

/-- The object `ret` that the `toJSON` options (`getters`, `virtuals`) make of a
document before the transform runs: every schema path and every virtual. -/
def toObject (self : User) : DocObject :=
  [("_id".toList, DocVal.str self._id),
   ("username".toList, DocVal.str self.username),
   ("name".toList, DocVal.str self.name),
   ("email".toList, DocVal.str self.email),
   ("provider".toList, DocVal.str self.provider),
   ("hashedPassword".toList, DocVal.str self.hashedPassword),
   ("salt".toList, DocVal.str self.salt),
   ("inviteCode".toList, DocVal.str self.inviteCode),
   ("avatar".toList, DocVal.str self.avatar),
   ("location".toList, DocVal.str self.location),
   ("tz".toList, DocVal.str self.tz),
   ("teams".toList, DocVal.ids self.teams),
   ("createdAt".toList, DocVal.date self.createdAt),
   ("updatedAt".toList, DocVal.date self.updatedAt),
   ("password".toList,
     match self._password with
     | some p => DocVal.str p
     | none => DocVal.undefined),
   ("isRegistered".toList, DocVal.bool (isRegistered self)),
   ("id".toList, DocVal.str self._id)]

/-- The `transform` function of the `toJSON` options. -/
def toJSONTransform (ret : DocObject) : DocObject :=
  PUBLIC_FIELDS.foldl (fun obj field => DocObject.set obj field (DocObject.get ret field)) []

/-- The method `toJSON` of a user document. -/
def toJSON (self : User) : DocObject := toJSONTransform (toObject self)

/-- The method `toAdminJSON`. -/
def toAdminJSON (self : User) : DocObject :=
  DocObject.set (toJSON self) "email".toList (DocVal.str self.email)

/-! ## Absent modules as the spec describes them, and sample inputs -/

/-- The moment on day `d` at `h:m:s`. -/
def Moment.ofFields (d h m s : Int) : Moment :=
  ⟨d * 86400000 + h * 3600000 + m * 60000 + s * 1000⟩

/-- Modelled from the spec: `utils/time.js` is not part of the development.
Section 4.1 describes `roundToQuarterHour(minutes)` as the signed number of
minutes to add to reach the nearest boundary in {0,15,30,45}, the closer
boundary being chosen and a tie going to the later one. -/
def specRoundToQuarterHour (minutes : Int) : Int :=
  if 15 ≤ 2 * (minutes % 15) then 15 - minutes % 15 else -(minutes % 15)

/-- Decimal digit as a character. -/
def digit (n : Int) : Char :=
  ['0', '1', '2', '3', '4', '5', '6', '7', '8', '9'].getD n.toNat '0'

/-- The text `HH:MM` of a moment. -/
def clockText (t : Moment) : Str :=
  [digit (t.hour / 10), digit (t.hour % 10), ':', digit (t.minute / 10), digit (t.minute % 10)]

/-- Modelled from the spec: `utils/transform.js` is not part of the
development. Section 3 describes the projections as a mapping from person to
localized time string derived from the simulated time and the people; the
zone database is left out and every person is given the clock text of the
moment. -/
def specTransform (time : Moment) (people : List Person) : Projections :=
  people.map (fun p => (p, clockText time))

/-- Characters a URL parser leaves as they are inside a path. -/
def plainPathChars : List Char :=
  "abcdefghijklmnopqrstuvwxyzABCDEFGHIJKLMNOPQRSTUVWXYZ0123456789-_/".toList

/-- A URL parser for the sample runs. An absolute path made of letters, digits,
`-`, `_` and `/` that does not begin with `//` becomes the pathname as it is,
which is what a browser does with such a path; for any other argument the
pathname is left as it was, and the sample runs push none. -/
def samplePathname (current url : Str) : Str :=
  match url with
  | '/' :: rest =>
    if rest.head? ≠ some '/' ∧ rest.all (fun c => plainPathChars.contains c) then url
    else current
  | _ => current

/-- The absent modules as the spec describes them, with the sample URL
parser. -/
def specUtils : Utils :=
  { transform := specTransform, roundToQuarterHour := specRoundToQuarterHour,
    pathname := samplePathname }

/-- A team with base path `/teams/acme`. -/
def acme : Team := { _id := "acme".toList, url := "/teams/acme".toList }

/-- A member of the sample team. -/
def ann : Person := { name := "ann".toList, tz := "Europe/Paris".toList }

/-- Page data of the sample team, loaded at 10:00:30. -/
def acmeData : AppData :=
  { time := Moment.ofFields 16500 10 0 30, isCurrentTime := false, timeFormat := 12,
    currentView := appView, team := acme, people := [ann], csrf_token := "tok".toList }

/-- The sample page right after it has loaded at the base path. -/
def acmeWorld : World := load specUtils acmeData "/teams/acme".toList

/-- A stand-in digest for sample runs: the key followed by the text. -/
def sampleHmac : Hmac := fun key text => some (key ++ text)

/-- A user without a password. -/
def emptyUser : User :=
  { _id := "u1".toList, username := "ann".toList, name := "Ann".toList,
    email := "ann@acme.io".toList, provider := [], hashedPassword := [], salt := [],
    inviteCode := "inv".toList, avatar := [], location := "Paris".toList,
    tz := "Europe/Paris".toList, teams := ["acme".toList], createdAt := 0, updatedAt := 0,
    _password := none }

/-- A registered user. -/
def registeredUser : User := setPassword sampleHmac "42".toList (some "secret".toList) emptyUser

/-- The sample page in Manual state: the left arrow key was released. -/
def manualWorld : World := onKeyup KEY_LEFT acmeWorld

/-! ## Lemmas -/

theorem replaceFirstWithEmpty_append (url rest : Str) :
    replaceFirstWithEmpty url (url ++ rest) = rest := by
  cases h : url ++ rest with
  | nil =>
    simp at h
    simp [h.2, replaceFirstWithEmpty]
  | cons c cs =>
    rw [replaceFirstWithEmpty, if_pos, ← h, List.drop_left]
    rw [← h]; simp

theorem replaceFirstWithEmpty_self (url : Str) : replaceFirstWithEmpty url url = [] := by
  have h := replaceFirstWithEmpty_append url []
  simpa using h

theorem pathView_viewPath (url v : Str) : pathView url (viewPath url v) = v := by
  unfold pathView viewPath
  by_cases hv : v = appView
  · simp [hv, replaceFirstWithEmpty_self]
  · simp [hv, replaceFirstWithEmpty_append, substr1]

theorem Moment.hour_range (t : Moment) : 0 ≤ t.hour ∧ t.hour < 24 := by
  unfold Moment.hour; omega

theorem Moment.minute_range (t : Moment) : 0 ≤ t.minute ∧ t.minute < 60 := by
  unfold Moment.minute; omega

theorem Moment.fields_setHour_setMinute (t : Moment) (h m : Int)
    (h0 : 0 ≤ h) (h1 : h < 24) (m0 : 0 ≤ m) (m1 : m < 60) :
    ((t.setHour h).setMinute m).hour = h ∧ ((t.setHour h).setMinute m).minute = m ∧
    ((t.setHour h).setMinute m).date = t.date ∧
    ((t.setHour h).setMinute m).second = t.second ∧
    ((t.setHour h).setMinute m).millisecond = t.millisecond := by
  simp only [Moment.setHour, Moment.setMinute, Moment.hour, Moment.minute, Moment.date,
    Moment.second, Moment.millisecond]
  omega

theorem updateToCurrentTime_of_differs (now : Moment) (w : World)
    (h : now.hour ≠ w.appState.time.hour ∨ now.minute ≠ w.appState.time.minute) :
    updateToCurrentTime now w =
      renderApp
        { w with appState :=
            { w.appState with
                time := (w.appState.time.setHour now.hour).setMinute now.minute,
                isCurrentTime := true } } := by
  unfold updateToCurrentTime
  rw [if_neg]
  intro hc
  rcases h with h | h
  · exact h hc.1
  · exact h hc.2

theorem updateTimeAsPercent_zero_eq (u : Utils) (now : Moment) (w : World) :
    updateTimeAsPercent u now 0 w = updateToCurrentTime now (enableAutoUpdate w) := by
  simp [updateTimeAsPercent]

theorem viewPath_pathView (url path : Str) (h : IsViewPath url path) :
    viewPath url (pathView url path) = path := by
  rcases h with h | ⟨s, hs, h⟩
  · subst h
    simp [pathView, viewPath, replaceFirstWithEmpty_self]
  · subst h
    simp [pathView, viewPath, replaceFirstWithEmpty_append, substr1, hs]

theorem Moment.timeClip_intCast (z : Int) : Moment.timeClip (z : ℚ) = z := by
  unfold Moment.timeClip
  split
  · exact Int.ceil_intCast z
  · exact Int.floor_intCast z

theorem Moment.add_intCast (t : Moment) (k : Int) :
    t.add (k : ℚ) = ⟨t.valueOf + k * 60000⟩ := by
  unfold Moment.add
  have : (t.valueOf : ℚ) + (k : ℚ) * 60000 = ((t.valueOf + k * 60000 : Int) : ℚ) := by
    push_cast; rfl
  rw [this, Moment.timeClip_intCast]

theorem updateTimeAsPercent_whole_minutes (u : Utils) (now : Moment) (p : ℚ) (k : Int)
    (w : World) (hp : p ≠ 0) (hk : 720 * p = (k : ℚ)) :
    updateTimeAsPercent u now p w =
      renderApp
        { w with appState :=
            { w.appState with
                time :=
                  ⟨now.valueOf + k * 60000 +
                    (u.roundToQuarterHour (Moment.minute ⟨now.valueOf + k * 60000⟩) -
                      Moment.minute ⟨now.valueOf + k * 60000⟩) * 60000⟩,
                isCurrentTime := false } } := by
  unfold updateTimeAsPercent
  rw [if_neg hp]
  simp only [hk, Moment.add_intCast]

theorem specRoundToQuarterHour_spec (m : Int) :
    ((m + specRoundToQuarterHour m) % 60 = 0 ∨ (m + specRoundToQuarterHour m) % 60 = 15 ∨
        (m + specRoundToQuarterHour m) % 60 = 30 ∨ (m + specRoundToQuarterHour m) % 60 = 45) ∧
      -7 ≤ specRoundToQuarterHour m ∧ specRoundToQuarterHour m ≤ 7 := by
  unfold specRoundToQuarterHour
  split <;> omega

theorem lookup_cons_ite (k2 k1 : Str) (v1 : JsVal) (es : JsObject) :
    List.lookup k2 ((k1, v1) :: es) = if k2 = k1 then some v1 else List.lookup k2 es := by
  by_cases h : k2 = k1
  · subst h
    simp [List.lookup]
  · have hb : (k2 == k1) = false := by simpa using h
    simp [List.lookup, hb, h]

theorem JsObject.lookup_set (o : JsObject) (k : Str) (v : JsVal) (k2 : Str) :
    List.lookup k2 (JsObject.set o k v) = if k2 = k then some v else List.lookup k2 o := by
  induction o with
  | nil => simp [JsObject.set, lookup_cons_ite]
  | cons p ps ih =>
    obtain ⟨k1, v1⟩ := p
    by_cases h1 : k1 = k
    · subst h1
      by_cases h2 : k2 = k1
      · simp [JsObject.set, lookup_cons_ite, h2]
      · simp [JsObject.set, lookup_cons_ite, h2]
    · by_cases h2 : k2 = k1
      · have h3 : ¬ k2 = k := fun h => h1 (h2.symm.trans h)
        simp [JsObject.set, lookup_cons_ite, h1, h2, h3]
      · simp [JsObject.set, lookup_cons_ite, h1, h2, ih]

theorem updateToCurrentTime_frame (now : Moment) (w : World) :
    (updateToCurrentTime now w).appState.timezones = w.appState.timezones ∧
      (updateToCurrentTime now w).appState.people = w.appState.people := by
  unfold updateToCurrentTime
  split <;> simp [renderApp]

theorem step_frame (u : Utils) (w : World) (e : Moment × Event) :
    (step u w e).appState.timezones = w.appState.timezones ∧
      (step u w e).appState.people = w.appState.people := by
  obtain ⟨now, ev⟩ := e
  cases ev with
  | keyup keyCode =>
    simp only [step, onKeyup]
    split <;> simp [renderApp, disableAutoUpdate, clearInterval]
    all_goals (cases w.autoUpdateIntervalId <;> simp)
  | popstate pathname => simp [step, handlePopState, updateCurrentView, renderApp]
  | dispatch a =>
    cases a with
    | CHANGE_TIME_FORMAT value => simp [step, onAction, renderApp]
    | USE_CURRENT_TIME =>
      have h := updateToCurrentTime_frame now w
      simpa [step, onAction, enableAutoUpdate, setInterval] using h
    | ADJUST_TIME_DISPLAY value =>
      simp only [step, onAction, updateTimeAsPercent]
      split
      · have h := updateToCurrentTime_frame now (enableAutoUpdate (disableAutoUpdate w))
        rw [h.1, h.2]
        cases hw : w.autoUpdateIntervalId <;>
          simp [enableAutoUpdate, setInterval, disableAutoUpdate, clearInterval, hw]
      · cases hw : w.autoUpdateIntervalId <;>
          simp [renderApp, disableAutoUpdate, clearInterval, hw]
    | CLOSE_MODAL => simp [step, onAction, updateCurrentView, renderApp, pushState]
    | SHOW_MODAL value => simp [step, onAction, updateCurrentView, renderApp, pushState]
    | SAVE_TEAM_INFO value => simp [step, onAction, saveTeamInfo]
    | unrecognized actionType => simp [step, onAction]
  | tick id =>
    simp only [step]
    split
    · exact updateToCurrentTime_frame now w
    · simp
  | focus =>
    simp only [step]
    split
    · exact updateToCurrentTime_frame now w
    · simp
  | fetchSettled outcome => simp [step]

theorem foldl_step_frame (u : Utils) (es : List (Moment × Event)) (w : World) :
    (es.foldl (step u) w).appState.timezones = w.appState.timezones ∧
      (es.foldl (step u) w).appState.people = w.appState.people := by
  induction es generalizing w with
  | nil => simp
  | cons e es ih =>
    have h1 := ih (step u w e)
    have h2 := step_frame u w e
    simp only [List.foldl]
    exact ⟨h1.1.trans h2.1, h1.2.trans h2.2⟩

theorem updateToCurrentTime_hour_minute (now : Moment) (w : World) :
    (updateToCurrentTime now w).appState.time.hour = now.hour ∧
      (updateToCurrentTime now w).appState.time.minute = now.minute := by
  have hh := now.hour_range
  have hm := now.minute_range
  have hf := Moment.fields_setHour_setMinute w.appState.time now.hour now.minute
    hh.1 hh.2 hm.1 hm.2
  unfold updateToCurrentTime
  split
  · rename_i heq
    exact ⟨heq.1.symm, heq.2.symm⟩
  · exact ⟨hf.1, hf.2.1⟩

theorem updateToCurrentTime_timers (now : Moment) (w : World) :
    (updateToCurrentTime now w).intervals = w.intervals ∧
      (updateToCurrentTime now w).nextIntervalId = w.nextIntervalId ∧
      (updateToCurrentTime now w).onfocus = w.onfocus ∧
      (updateToCurrentTime now w).autoUpdateIntervalId = w.autoUpdateIntervalId := by
  unfold updateToCurrentTime
  split <;> simp [renderApp]

theorem encryptPassword_salt (hmac : Hmac) (u1 u2 : User) (password : Option Str)
    (h : u1.salt = u2.salt) :
    encryptPassword hmac u1 password = encryptPassword hmac u2 password := by
  unfold encryptPassword
  rw [h]

theorem toJSON_emptyUser :
    toJSON emptyUser =
      [("_id".toList, DocVal.str "u1".toList), ("username".toList, DocVal.str "ann".toList),
       ("name".toList, DocVal.str "Ann".toList), ("avatar".toList, DocVal.str []),
       ("location".toList, DocVal.str "Paris".toList),
       ("tz".toList, DocVal.str "Europe/Paris".toList),
       ("isRegistered".toList, DocVal.bool false)] := by
  decide

theorem samplePathname_settings :
    (step specUtils acmeWorld
        (Moment.ofFields 16500 10 1 0,
          Event.dispatch (Action.SHOW_MODAL "settings".toList))).location
      = "/teams/acme/settings".toList := by
  decide

/-! ## Claims -/

/-- C1: for every team base path, every view string `v` and whatever the view
shown in between, the path that `updateCurrentView(v, true)` pushes onto
history is the base path when `v` is `'app'` and the base path followed by `/`
and `v` otherwise, and a `popstate` event at which the pathname reads that path
makes `handlePopState` set the current view back to exactly `v`. -/
theorem updateCurrentView_handlePopState_round_trip (u : Utils) (now : Moment) (w : World)
    (v other : Str) :
    (updateCurrentView u v true w).pushed =
        (if v = appView then w.appState.team.url else w.appState.team.url ++ '/' :: v)
          :: w.pushed ∧
      (step u (updateCurrentView u other true (updateCurrentView u v true w))
          (now, Event.popstate
            (if v = appView then w.appState.team.url
              else w.appState.team.url ++ '/' :: v))).appState.currentView = v ∧
      (handlePopState u
          { updateCurrentView u other true (updateCurrentView u v true w) with
            location := (if v = appView then w.appState.team.url
              else w.appState.team.url ++ '/' :: v) }).appState.currentView = v := by
  have hdec : pathView w.appState.team.url
      (if v = appView then w.appState.team.url else w.appState.team.url ++ '/' :: v) = v := by
    have h := pathView_viewPath w.appState.team.url v
    by_cases hv : v = appView
    · simpa [viewPath, hv] using h
    · simpa [viewPath, hv] using h
  refine ⟨?_, ?_, ?_⟩
  · by_cases hv : v = appView <;> simp [updateCurrentView, pushState, renderApp, viewPath, hv]
  · simp only [step, handlePopState, updateCurrentView, pushState, renderApp]
    exact hdec
  · simp only [handlePopState, updateCurrentView, pushState, renderApp]
    exact hdec

/-- C2 as stated fails: the page loaded at 10:00:30 and asked for scrub
position 0 when the real clock reads 10:05:12 ends at 10:05:30, not at the
real time with its seconds cut off (10:05:00). -/
theorem updateTimeAsPercent_zero_keeps_seconds :
    (updateTimeAsPercent specUtils (Moment.ofFields 16500 10 5 12) 0 acmeWorld).appState.time
        = Moment.ofFields 16500 10 5 30 ∧
      ¬ ((updateTimeAsPercent specUtils (Moment.ofFields 16500 10 5 12) 0
            acmeWorld).appState.isCurrentTime = true ∧
          (updateTimeAsPercent specUtils (Moment.ofFields 16500 10 5 12) 0
            acmeWorld).appState.time = (Moment.ofFields 16500 10 5 12).startOfMinute) := by
  rw [updateTimeAsPercent_zero_eq]
  decide

/-- C2 amended: for every state and every real current time whose hour or
minute differs from the simulated time's, `updateTimeAsPercent(0)` ends with
`isCurrentTime` true and with the simulated time carrying the real clock's
hour and minute, while its date, seconds and milliseconds stay those of the
previous simulated time. -/
theorem updateTimeAsPercent_zero_syncs (u : Utils) (now : Moment) (w : World)
    (h : now.hour ≠ w.appState.time.hour ∨ now.minute ≠ w.appState.time.minute) :
    (updateTimeAsPercent u now 0 w).appState.isCurrentTime = true ∧
      (updateTimeAsPercent u now 0 w).appState.time.hour = now.hour ∧
      (updateTimeAsPercent u now 0 w).appState.time.minute = now.minute ∧
      (updateTimeAsPercent u now 0 w).appState.time.date = w.appState.time.date ∧
      (updateTimeAsPercent u now 0 w).appState.time.second = w.appState.time.second ∧
      (updateTimeAsPercent u now 0 w).appState.time.millisecond
        = w.appState.time.millisecond := by
  have h2 : now.hour ≠ (enableAutoUpdate w).appState.time.hour ∨
      now.minute ≠ (enableAutoUpdate w).appState.time.minute := h
  rw [updateTimeAsPercent_zero_eq, updateToCurrentTime_of_differs now _ h2]
  have hh := now.hour_range
  have hm := now.minute_range
  have hf := Moment.fields_setHour_setMinute w.appState.time now.hour now.minute
    hh.1 hh.2 hm.1 hm.2
  simpa [renderApp, enableAutoUpdate, setInterval] using hf

/-- Witness for C2 amended: the loaded sample page (10:00:30) with the real
clock at 10:05:12. -/
theorem updateTimeAsPercent_zero_syncs_witness :
    ((Moment.ofFields 16500 10 5 12).hour ≠ acmeWorld.appState.time.hour ∨
        (Moment.ofFields 16500 10 5 12).minute ≠ acmeWorld.appState.time.minute) ∧
      (updateTimeAsPercent specUtils (Moment.ofFields 16500 10 5 12) 0
          acmeWorld).appState.isCurrentTime = true ∧
      (updateTimeAsPercent specUtils (Moment.ofFields 16500 10 5 12) 0
          acmeWorld).appState.time.hour = (Moment.ofFields 16500 10 5 12).hour :=
  ⟨by decide,
    (updateTimeAsPercent_zero_syncs specUtils (Moment.ofFields 16500 10 5 12) acmeWorld
      (by decide)).1,
    (updateTimeAsPercent_zero_syncs specUtils (Moment.ofFields 16500 10 5 12) acmeWorld
      (by decide)).2.1⟩

/-- C3 fails on the code: the page loads in Auto with one interval timer, and
handling `USE_CURRENT_TIME` then starts a second one without clearing the
first, so two timers are active. -/
theorem use_current_time_in_auto_leaves_two_timers :
    acmeWorld.intervals = [0] ∧
      (run specUtils acmeData "/teams/acme".toList
        [(Moment.ofFields 16500 10 5 12, Event.dispatch Action.USE_CURRENT_TIME)]).intervals
        = [0, 1] := by
  decide

/-- C4 fails on the code: after `USE_CURRENT_TIME` was handled on the freshly
loaded page (two timers, see C3), the `ADJUST_TIME_DISPLAY` intent with value
1/2 clears only the timer held in `autoUpdateIntervalId`; `isCurrentTime` is
false and the focus hook is cleared, yet timer 0 is still active. -/
theorem adjust_time_display_leaves_timer_active :
    (run specUtils acmeData "/teams/acme".toList
        [(Moment.ofFields 16500 10 5 12, Event.dispatch Action.USE_CURRENT_TIME),
         (Moment.ofFields 16500 10 5 40,
           Event.dispatch (Action.ADJUST_TIME_DISPLAY (1 / 2)))]).appState.isCurrentTime
        = false ∧
      (run specUtils acmeData "/teams/acme".toList
        [(Moment.ofFields 16500 10 5 12, Event.dispatch Action.USE_CURRENT_TIME),
         (Moment.ofFields 16500 10 5 40,
           Event.dispatch (Action.ADJUST_TIME_DISPLAY (1 / 2)))]).onfocus = none ∧
      (run specUtils acmeData "/teams/acme".toList
        [(Moment.ofFields 16500 10 5 12, Event.dispatch Action.USE_CURRENT_TIME),
         (Moment.ofFields 16500 10 5 40,
           Event.dispatch (Action.ADJUST_TIME_DISPLAY (1 / 2)))]).intervals = [0] := by
  have h : ¬ ((1 : ℚ) / 2 = 0) := by norm_num
  have hk : 720 * ((1 : ℚ) / 2) = ((360 : Int) : ℚ) := by norm_num
  simp only [run, List.foldl, step, onAction,
    updateTimeAsPercent_whole_minutes _ _ _ 360 _ h hk]
  decide

/-- C5 fails on the code: with `roundToQuarterHour` returning the signed delta
that section 4.1 describes, real time 14:07 and scrub position 1/2 give
20:07 moved by `roundToQuarterHour(7) - 7`, that is by -14 minutes: the
simulated time is 19:53, whose minute is not a quarter hour and which lies 14
minutes from 20:07, instead of 20:00. -/
theorem updateTimeAsPercent_with_delta_helper :
    specUtils.roundToQuarterHour 7 = -7 ∧
      (updateTimeAsPercent specUtils (Moment.ofFields 16500 14 7 0) (1 / 2)
        acmeWorld).appState.time = Moment.ofFields 16500 19 53 0 ∧
      (updateTimeAsPercent specUtils (Moment.ofFields 16500 14 7 0) (1 / 2)
        acmeWorld).appState.time.minute ∉ [0, 15, 30, 45] ∧
      (Moment.ofFields 16500 20 7 0).valueOf -
          (updateTimeAsPercent specUtils (Moment.ofFields 16500 14 7 0) (1 / 2)
            acmeWorld).appState.time.valueOf = 14 * 60000 := by
  have h : ¬ ((1 : ℚ) / 2 = 0) := by norm_num
  have hk : 720 * ((1 : ℚ) / 2) = ((360 : Int) : ℚ) := by norm_num
  rw [updateTimeAsPercent_whole_minutes _ _ _ 360 _ h hk]
  decide

/-- C6 as stated fails: a response with status 500 whose body is JSON makes the
promise returned by `saveTeamInfo` resolve with that body. -/
theorem saveTeamInfo_resolves_on_status_500 :
    (saveTeamInfo [("name".toList, JsVal.str "Acme".toList)] acmeWorld).2
        (FetchOutcome.response 500 (some [("message".toList, JsVal.str "denied".toList)]))
      = Except.ok [("message".toList, JsVal.str "denied".toList)] := by
  rfl

/-- C6 amended: for every info object, the promise returned by `saveTeamInfo`
is rejected when the write fails by a network error or when the response body
is not JSON; a response whose body is JSON resolves with the parsed body
whatever its HTTP status. -/
theorem saveTeamInfo_outcome (info : JsObject) (w : World) (message : Str) (status : Nat)
    (body : JsObject) :
    (saveTeamInfo info w).2 (FetchOutcome.networkError message) = Except.error message ∧
      (∃ reason, (saveTeamInfo info w).2 (FetchOutcome.response status none)
        = Except.error reason) ∧
      (saveTeamInfo info w).2 (FetchOutcome.response status (some body)) = Except.ok body := by
  refine ⟨rfl, ⟨_, rfl⟩, rfl⟩

/-- C7: handling `SAVE_TEAM_INFO` issues exactly one write, a `PUT` to
`/api/team/` followed by the team id, whose body is the info object with the
`_csrf` property set to the state's credential token and every other property
as in info; every field of the application state, the render count and the
pushed history are unchanged, and the settling of the write, whatever its
outcome, changes nothing either. -/
theorem save_team_info_frame (u : Utils) (now later : Moment) (info : JsObject) (w : World)
    (outcome : FetchOutcome) (k : Str) :
    (step u w (now, Event.dispatch (Action.SAVE_TEAM_INFO info))).requests
        = w.requests ++ [saveTeamInfoRequest w.appState info] ∧
      (saveTeamInfoRequest w.appState info).method = ['P', 'U', 'T'] ∧
      (saveTeamInfoRequest w.appState info).url
        = ['/', 'a', 'p', 'i', '/', 't', 'e', 'a', 'm', '/'] ++ w.appState.team._id ∧
      List.lookup k (saveTeamInfoRequest w.appState info).body
        = (if k = ['_', 'c', 's', 'r', 'f'] then some (JsVal.str w.appState.csrf_token)
            else List.lookup k info) ∧
      (step u w (now, Event.dispatch (Action.SAVE_TEAM_INFO info))).appState = w.appState ∧
      (step u w (now, Event.dispatch (Action.SAVE_TEAM_INFO info))).renders = w.renders ∧
      (step u w (now, Event.dispatch (Action.SAVE_TEAM_INFO info))).pushed = w.pushed ∧
      step u (step u w (now, Event.dispatch (Action.SAVE_TEAM_INFO info)))
          (later, Event.fetchSettled outcome)
        = step u w (now, Event.dispatch (Action.SAVE_TEAM_INFO info)) := by
  refine ⟨rfl, rfl, rfl, ?_, rfl, rfl, rfl, rfl⟩
  have h := JsObject.lookup_set info csrfKey (JsVal.str w.appState.csrf_token) k
  simpa [saveTeamInfoRequest, csrfKey] using h

/-- C8 as stated fails: after one timer tick at 10:05:12 on the page loaded at
10:00:30 the simulated time reads 10:05 while the stored projections still
show 10:00, so they differ from the transform of the current time. -/
theorem timezones_stale_after_tick :
    (run specUtils acmeData "/teams/acme".toList
        [(Moment.ofFields 16500 10 5 12, Event.tick 0)]).appState.timezones
      ≠ specUtils.transform
          (run specUtils acmeData "/teams/acme".toList
            [(Moment.ofFields 16500 10 5 12, Event.tick 0)]).appState.time
          (run specUtils acmeData "/teams/acme".toList
            [(Moment.ofFields 16500 10 5 12, Event.tick 0)]).appState.people := by
  decide

/-- C8 amended: in every state reachable from the loaded page by any sequence
of events, the stored projections equal the transform of the time and people
the page was loaded with; they are computed once at load and are not
recomputed when the simulated time changes, and the people never change. -/
theorem timezones_fixed_at_load (u : Utils) (appData : AppData) (pathname : Str)
    (es : List (Moment × Event)) :
    (run u appData pathname es).appState.timezones
        = u.transform appData.time appData.people ∧
      (run u appData pathname es).appState.people = appData.people := by
  have h := foldl_step_frame u es (load u appData pathname)
  unfold run
  rw [h.1, h.2]
  simp [load, enableAutoUpdate, setInterval, renderApp]

/-- C9 as stated fails: the paths `/teams/acme` and `/teams/acme/app` both
begin with the base path and both decode to the view `'app'`, and encoding the
view decoded from `/teams/acme/app` pushes `/teams/acme`. -/
theorem popstate_path_not_recovered :
    acme.url.isPrefixOf "/teams/acme/app".toList = true ∧
      (handlePopState specUtils
          { acmeWorld with location := "/teams/acme/app".toList }).appState.currentView
        = (handlePopState specUtils
            { acmeWorld with location := "/teams/acme".toList }).appState.currentView ∧
      (updateCurrentView specUtils
          (handlePopState specUtils
            { acmeWorld with location := "/teams/acme/app".toList }).appState.currentView
          true { acmeWorld with location := "/teams/acme/app".toList }).pushed
        = ["/teams/acme".toList] ∧
      (updateCurrentView specUtils
          (handlePopState specUtils
            { acmeWorld with location := "/teams/acme/app".toList }).appState.currentView
          true { acmeWorld with location := "/teams/acme/app".toList }).pushed
        ≠ ["/teams/acme/app".toList] := by
  decide

/-- C9 amended: for every path that is the team's base path itself or the base
path followed by `/` and a view other than `'app'`, encoding the view that
`handlePopState` decodes from it, as `updateCurrentView` does, pushes that same
path again; hence two such paths that decode to the same view are equal. -/
theorem handlePopState_updateCurrentView_round_trip (u : Utils) (w w2 : World)
    (hurl : w2.appState.team.url = w.appState.team.url)
    (h : IsViewPath w.appState.team.url w.location)
    (h2 : IsViewPath w.appState.team.url w2.location) :
    (updateCurrentView u (handlePopState u w).appState.currentView true w).pushed
        = w.location :: w.pushed ∧
      ((handlePopState u w).appState.currentView
          ≠ (handlePopState u w2).appState.currentView ∨
        w.location = w2.location) := by
  have e1 : (handlePopState u w).appState.currentView
      = pathView w.appState.team.url w.location := by
    simp [handlePopState, updateCurrentView, renderApp]
  have e2 : (handlePopState u w2).appState.currentView
      = pathView w.appState.team.url w2.location := by
    simp [handlePopState, updateCurrentView, renderApp, hurl]
  have r1 := viewPath_pathView _ _ h
  have r2 := viewPath_pathView _ _ h2
  refine ⟨?_, ?_⟩
  · rw [e1]
    simpa [updateCurrentView, renderApp, pushState] using r1
  · by_cases hv : (handlePopState u w).appState.currentView
        = (handlePopState u w2).appState.currentView
    · right
      rw [e1, e2] at hv
      rw [← r1, ← r2, hv]
    · exact Or.inl hv

/-- Witness for C9 amended: the sample page at `/teams/acme/settings` and at
`/teams/acme`. -/
theorem handlePopState_updateCurrentView_round_trip_witness :
    IsViewPath acmeWorld.appState.team.url "/teams/acme/settings".toList ∧
      (updateCurrentView specUtils
          (handlePopState specUtils
            { acmeWorld with location := "/teams/acme/settings".toList }).appState.currentView
          true { acmeWorld with location := "/teams/acme/settings".toList }).pushed
        = ["/teams/acme/settings".toList] :=
  ⟨Or.inr ⟨"settings".toList, by decide, by decide⟩,
    (handlePopState_updateCurrentView_round_trip specUtils
      { acmeWorld with location := "/teams/acme/settings".toList } acmeWorld rfl
      (Or.inr ⟨"settings".toList, by decide, by decide⟩) (Or.inl (by decide))).1⟩

/-- C10: for every state and every real current time whose hour or minute
differs from the simulated time's, two consecutive `updateToCurrentTime` calls
made within the same real minute render exactly once in total; the second call
leaves the state as the first left it. -/
theorem updateToCurrentTime_twice (now now2 : Moment) (w : World)
    (h : now.hour ≠ w.appState.time.hour ∨ now.minute ≠ w.appState.time.minute)
    (hsame : now2.valueOf / 60000 = now.valueOf / 60000) :
    (updateToCurrentTime now w).renders = w.renders + 1 ∧
      updateToCurrentTime now2 (updateToCurrentTime now w) = updateToCurrentTime now w ∧
      (updateToCurrentTime now2 (updateToCurrentTime now w)).renders = w.renders + 1 := by
  have hh := now.hour_range
  have hm := now.minute_range
  have hf := Moment.fields_setHour_setMinute w.appState.time now.hour now.minute
    hh.1 hh.2 hm.1 hm.2
  have h2h : now2.hour = now.hour := by
    simp only [Moment.hour]; omega
  have h2m : now2.minute = now.minute := by
    simp only [Moment.minute]; omega
  have hr : (updateToCurrentTime now w).renders = w.renders + 1 := by
    rw [updateToCurrentTime_of_differs now w h]; rfl
  have hnoop : updateToCurrentTime now2 (updateToCurrentTime now w)
      = updateToCurrentTime now w := by
    rw [updateToCurrentTime_of_differs now w h]
    unfold updateToCurrentTime
    rw [if_pos]
    simp only [renderApp, h2h, h2m]
    exact ⟨hf.1.symm, hf.2.1.symm⟩
  exact ⟨hr, hnoop, by rw [hnoop, hr]⟩

/-- Witness for C10: the sample page (10:00:30) polled at 10:05:12 and again
at 10:05:32. -/
theorem updateToCurrentTime_twice_witness :
    ((Moment.ofFields 16500 10 5 12).hour ≠ acmeWorld.appState.time.hour ∨
        (Moment.ofFields 16500 10 5 12).minute ≠ acmeWorld.appState.time.minute) ∧
      (Moment.ofFields 16500 10 5 32).valueOf / 60000
        = (Moment.ofFields 16500 10 5 12).valueOf / 60000 ∧
      (updateToCurrentTime (Moment.ofFields 16500 10 5 32)
          (updateToCurrentTime (Moment.ofFields 16500 10 5 12) acmeWorld)).renders
        = acmeWorld.renders + 1 :=
  ⟨by decide, by decide,
    (updateToCurrentTime_twice (Moment.ofFields 16500 10 5 12) (Moment.ofFields 16500 10 5 32)
      acmeWorld (by decide) (by decide)).2.2⟩

/-- C11: for every team base path and every modal identifier `v` other than
`'app'`, handling `SHOW_MODAL` with value `v` sets the current view to `v`,
pushes exactly one history entry, the base path followed by `/` and `v`, and
renders once; a following `CLOSE_MODAL` sets the current view to `'app'`,
pushes exactly one entry, the base path, and renders once. -/
theorem show_modal_then_close_modal (u : Utils) (now later : Moment) (w : World) (v : Str)
    (hv : v ≠ appView) :
    (step u w (now, Event.dispatch (Action.SHOW_MODAL v))).appState.currentView = v ∧
      (step u w (now, Event.dispatch (Action.SHOW_MODAL v))).pushed
        = (w.appState.team.url ++ '/' :: v) :: w.pushed ∧
      (step u w (now, Event.dispatch (Action.SHOW_MODAL v))).renders = w.renders + 1 ∧
      (step u (step u w (now, Event.dispatch (Action.SHOW_MODAL v)))
          (later, Event.dispatch Action.CLOSE_MODAL)).appState.currentView = appView ∧
      (step u (step u w (now, Event.dispatch (Action.SHOW_MODAL v)))
          (later, Event.dispatch Action.CLOSE_MODAL)).pushed
        = w.appState.team.url :: (w.appState.team.url ++ '/' :: v) :: w.pushed ∧
      (step u (step u w (now, Event.dispatch (Action.SHOW_MODAL v)))
          (later, Event.dispatch Action.CLOSE_MODAL)).renders = w.renders + 2 := by
  simp [step, onAction, updateCurrentView, pushState, renderApp, viewPath, hv]

/-- Witness for C11: base path `/teams/acme` and modal `settings`. -/
theorem show_modal_then_close_modal_witness :
    "settings".toList ≠ appView ∧
      (step specUtils acmeWorld
          (Moment.ofFields 16500 10 1 0,
            Event.dispatch (Action.SHOW_MODAL "settings".toList))).pushed
        = ["/teams/acme/settings".toList] ∧
      (step specUtils
          (step specUtils acmeWorld
            (Moment.ofFields 16500 10 1 0,
              Event.dispatch (Action.SHOW_MODAL "settings".toList)))
          (Moment.ofFields 16500 10 2 0, Event.dispatch Action.CLOSE_MODAL)).pushed
        = ["/teams/acme".toList, "/teams/acme/settings".toList] :=
  ⟨by decide,
    (show_modal_then_close_modal specUtils (Moment.ofFields 16500 10 1 0)
      (Moment.ofFields 16500 10 2 0) acmeWorld "settings".toList (by decide)).2.1,
    (show_modal_then_close_modal specUtils (Moment.ofFields 16500 10 1 0)
      (Moment.ofFields 16500 10 2 0) acmeWorld "settings".toList (by decide)).2.2.2.2.1⟩

/-- C12: for every state and every payload whose action type is none of the six
handled ones, the dispatcher handler returns with the whole world as it was:
every field of the application state, the timers and the focus hook, the
render count, the pushed history and the issued requests. -/
theorem unrecognized_action_ignored (u : Utils) (now : Moment) (w : World)
    (actionType : Nat) :
    step u w (now, Event.dispatch (Action.unrecognized actionType)) = w ∧
      (step u w (now, Event.dispatch (Action.unrecognized actionType))).appState
        = w.appState ∧
      (step u w (now, Event.dispatch (Action.unrecognized actionType))).intervals
        = w.intervals ∧
      (step u w (now, Event.dispatch (Action.unrecognized actionType))).onfocus
        = w.onfocus ∧
      (step u w (now, Event.dispatch (Action.unrecognized actionType))).renders
        = w.renders ∧
      (step u w (now, Event.dispatch (Action.unrecognized actionType))).pushed
        = w.pushed ∧
      (step u w (now, Event.dispatch (Action.unrecognized actionType))).requests
        = w.requests := by
  refine ⟨rfl, rfl, rfl, rfl, rfl, rfl, rfl⟩

/-- C13: for every user, every salt drawn by `makeSalt` and every non-empty
password `p`, after the virtual `password` is assigned `p` the salt is the new
one, the hashed password is the digest of `p` under that salt (the empty
string when the digest call throws), and `authenticate(p)` returns true. -/
theorem setPassword_authenticate (hmac : Hmac) (newSalt p : Str) (self : User)
    (hp : p ≠ []) :
    authenticate hmac (setPassword hmac newSalt (some p) self) (some p) = true ∧
      (setPassword hmac newSalt (some p) self).salt = newSalt ∧
      (setPassword hmac newSalt (some p) self).hashedPassword
        = (match hmac newSalt p with
            | some digest => digest
            | none => []) := by
  cases p with
  | nil => exact absurd rfl hp
  | cons c cs =>
    refine ⟨?_, rfl, ?_⟩
    · simp only [authenticate, setPassword, decide_eq_true_eq]
      exact encryptPassword_salt hmac _ _ _ rfl
    · simp [setPassword, encryptPassword]

/-- Witness for C13: the password `secret` assigned to the sample user. -/
theorem setPassword_authenticate_witness :
    "secret".toList ≠ [] ∧
      authenticate sampleHmac
          (setPassword sampleHmac "42".toList (some "secret".toList) emptyUser)
          (some "secret".toList) = true :=
  ⟨by decide,
    (setPassword_authenticate sampleHmac "42".toList "secret".toList emptyUser
      (by decide)).1⟩

/-- C14: for every state and every real current time whose hour or minute
differs from the simulated time's, `updateToCurrentTime` leaves the simulated
time with the real clock's hour and minute and with its date, seconds and
milliseconds unchanged, sets `isCurrentTime`, renders once, and leaves the time
format, the current view, the team, the people, the credential token and the
timers and focus hook unchanged. -/
theorem updateToCurrentTime_postcondition (now : Moment) (w : World)
    (h : now.hour ≠ w.appState.time.hour ∨ now.minute ≠ w.appState.time.minute) :
    ((updateToCurrentTime now w).appState.time.hour = now.hour ∧
        (updateToCurrentTime now w).appState.time.minute = now.minute ∧
        (updateToCurrentTime now w).appState.time.date = w.appState.time.date ∧
        (updateToCurrentTime now w).appState.time.second = w.appState.time.second ∧
        (updateToCurrentTime now w).appState.time.millisecond
          = w.appState.time.millisecond) ∧
      (updateToCurrentTime now w).appState.isCurrentTime = true ∧
      (updateToCurrentTime now w).renders = w.renders + 1 ∧
      ((updateToCurrentTime now w).appState.timeFormat = w.appState.timeFormat ∧
        (updateToCurrentTime now w).appState.currentView = w.appState.currentView ∧
        (updateToCurrentTime now w).appState.team = w.appState.team ∧
        (updateToCurrentTime now w).appState.people = w.appState.people ∧
        (updateToCurrentTime now w).appState.csrf_token = w.appState.csrf_token) ∧
      ((updateToCurrentTime now w).autoUpdateIntervalId = w.autoUpdateIntervalId ∧
        (updateToCurrentTime now w).intervals = w.intervals ∧
        (updateToCurrentTime now w).onfocus = w.onfocus) := by
  have hh := now.hour_range
  have hm := now.minute_range
  have hf := Moment.fields_setHour_setMinute w.appState.time now.hour now.minute
    hh.1 hh.2 hm.1 hm.2
  rw [updateToCurrentTime_of_differs now w h]
  exact ⟨hf, rfl, rfl, ⟨rfl, rfl, rfl, rfl, rfl⟩, ⟨rfl, rfl, rfl⟩⟩

/-- Witness for C14: the sample page (10:00:30) with the real clock at
10:05:12. -/
theorem updateToCurrentTime_postcondition_witness :
    ((Moment.ofFields 16500 10 5 12).hour ≠ acmeWorld.appState.time.hour ∨
        (Moment.ofFields 16500 10 5 12).minute ≠ acmeWorld.appState.time.minute) ∧
      (updateToCurrentTime (Moment.ofFields 16500 10 5 12) acmeWorld).appState.isCurrentTime
        = true ∧
      (updateToCurrentTime (Moment.ofFields 16500 10 5 12) acmeWorld).renders
        = acmeWorld.renders + 1 :=
  ⟨by decide,
    (updateToCurrentTime_postcondition (Moment.ofFields 16500 10 5 12) acmeWorld
      (by decide)).2.1,
    (updateToCurrentTime_postcondition (Moment.ofFields 16500 10 5 12) acmeWorld
      (by decide)).2.2.1⟩

/-- C15: for every state and every location path, handling a `popstate` event
sets the current view to the view decoded from the path (the path with the
first occurrence of the base path removed: `'app'` when nothing is left, else
what is left without its first character), renders once, pushes nothing onto
the history, and leaves the simulated time, `isCurrentTime` and the timers and
focus hook unchanged. -/
theorem popstate_does_not_push (u : Utils) (now : Moment) (w : World) (pathname : Str) :
    (step u w (now, Event.popstate pathname)).appState.currentView
        = (if replaceFirstWithEmpty w.appState.team.url pathname = [] then appView
            else (replaceFirstWithEmpty w.appState.team.url pathname).drop 1) ∧
      (step u w (now, Event.popstate pathname)).renders = w.renders + 1 ∧
      (step u w (now, Event.popstate pathname)).pushed = w.pushed ∧
      (step u w (now, Event.popstate pathname)).location = pathname ∧
      (step u w (now, Event.popstate pathname)).appState.time = w.appState.time ∧
      (step u w (now, Event.popstate pathname)).appState.isCurrentTime
        = w.appState.isCurrentTime ∧
      (step u w (now, Event.popstate pathname)).intervals = w.intervals ∧
      (step u w (now, Event.popstate pathname)).autoUpdateIntervalId
        = w.autoUpdateIntervalId ∧
      (step u w (now, Event.popstate pathname)).onfocus = w.onfocus := by
  refine ⟨?_, rfl, rfl, rfl, rfl, rfl, rfl, rfl, rfl⟩
  by_cases hseg : replaceFirstWithEmpty w.appState.team.url pathname = []
  · simp [step, handlePopState, updateCurrentView, renderApp, pathView, hseg]
  · simp [step, handlePopState, updateCurrentView, renderApp, pathView, substr1, hseg]

/-- C16: for every state in which no interval timer is active and the focus hook
is cleared, and every real current time, after `USE_CURRENT_TIME` is handled
exactly one interval timer is active, its identifier is held in
`autoUpdateIntervalId`, the focus hook is `updateToCurrentTime`, and the
simulated time's hour and minute are the real clock's. -/
theorem use_current_time_from_manual (u : Utils) (now : Moment) (w : World)
    (hTimers : w.intervals = []) (_hFocus : w.onfocus = none) :
    (step u w (now, Event.dispatch Action.USE_CURRENT_TIME)).intervals
        = [w.nextIntervalId] ∧
      (step u w (now, Event.dispatch Action.USE_CURRENT_TIME)).intervals.length = 1 ∧
      (step u w (now, Event.dispatch Action.USE_CURRENT_TIME)).autoUpdateIntervalId
        = some w.nextIntervalId ∧
      (step u w (now, Event.dispatch Action.USE_CURRENT_TIME)).onfocus
        = some Callback.updateToCurrentTime ∧
      (step u w (now, Event.dispatch Action.USE_CURRENT_TIME)).appState.time.hour
        = now.hour ∧
      (step u w (now, Event.dispatch Action.USE_CURRENT_TIME)).appState.time.minute
        = now.minute := by
  have ht := updateToCurrentTime_timers now w
  have hc := updateToCurrentTime_hour_minute now w
  have hi : (step u w (now, Event.dispatch Action.USE_CURRENT_TIME)).intervals
      = [w.nextIntervalId] := by
    simp [step, onAction, enableAutoUpdate, setInterval, ht.1, ht.2.1, hTimers]
  refine ⟨hi, ?_, ?_, ?_, ?_, ?_⟩
  · rw [hi]; rfl
  · simp [step, onAction, enableAutoUpdate, setInterval, ht.2.1]
  · simp [step, onAction, enableAutoUpdate, setInterval]
  · simpa [step, onAction, enableAutoUpdate, setInterval] using hc.1
  · simpa [step, onAction, enableAutoUpdate, setInterval] using hc.2

/-- Witness for C16: the sample page after an arrow key put it in Manual
state, with the real clock at 10:05:12. -/
theorem use_current_time_from_manual_witness :
    (manualWorld.intervals = [] ∧ manualWorld.onfocus = none) ∧
      (step specUtils manualWorld
          (Moment.ofFields 16500 10 5 12, Event.dispatch Action.USE_CURRENT_TIME)).intervals
        = [manualWorld.nextIntervalId] :=
  ⟨by decide,
    (use_current_time_from_manual specUtils (Moment.ofFields 16500 10 5 12) manualWorld
      (by decide) (by decide)).1⟩

/-- C17: for every user, `authenticate` of the empty string, and of an absent
plain text, returns true exactly when the user's hashed password is the empty
string: it agrees with `isEmptyUser` and is the opposite of `isRegistered`. -/
theorem authenticate_empty (hmac : Hmac) (self : User) :
    (authenticate hmac self (some []) = true ↔ self.hashedPassword = []) ∧
      (authenticate hmac self none = true ↔ self.hashedPassword = []) ∧
      authenticate hmac self (some []) = isEmptyUser self ∧
      authenticate hmac self none = isEmptyUser self ∧
      authenticate hmac self (some []) = !(isRegistered self) := by
  cases hpw : self.hashedPassword <;>
    simp [authenticate, encryptPassword, isEmptyUser, isRegistered, hpw]

/-- C18: for every user document, `toJSON` returns an object whose keys are
exactly `_id`, `username`, `name`, `avatar`, `location`, `tz`, `isRegistered`,
each with the value the serialised document has for it, `isRegistered` being
true exactly when the hashed password is not empty; changing the hashed
password, salt, email, invite code, provider and teams of a document leaves
its serialisation the same exactly when the hashed password stays empty or
stays non-empty; `toAdminJSON` returns that object with the one extra key
`email`. -/
theorem toJSON_public_fields (self : User) (hashed salt email inviteCode provider : Str)
    (teams : List Str) :
    (toJSON self).map Prod.fst = PUBLIC_FIELDS ∧
      toJSON self = PUBLIC_FIELDS.map (fun field => (field, DocObject.get (toObject self) field)) ∧
      toJSON self =
        [("_id".toList, DocVal.str self._id), ("username".toList, DocVal.str self.username),
         ("name".toList, DocVal.str self.name), ("avatar".toList, DocVal.str self.avatar),
         ("location".toList, DocVal.str self.location), ("tz".toList, DocVal.str self.tz),
         ("isRegistered".toList, DocVal.bool (isRegistered self))] ∧
      (isRegistered self = true ↔ self.hashedPassword ≠ []) ∧
      (toJSON { self with hashedPassword := hashed, salt := salt, email := email,
                          inviteCode := inviteCode, provider := provider, teams := teams }
          = toJSON self ↔
        (hashed = [] ↔ self.hashedPassword = [])) ∧
      toAdminJSON self = toJSON self ++ [("email".toList, DocVal.str self.email)] ∧
      (toAdminJSON self).map Prod.fst = PUBLIC_FIELDS ++ ["email".toList] := by
  have hreg : ∀ u : User, (isRegistered u = true ↔ u.hashedPassword ≠ []) := by
    intro u
    cases hpw : u.hashedPassword <;> simp [isRegistered, hpw]
  have e1 : ∀ u : User, toJSON u =
      [("_id".toList, DocVal.str u._id), ("username".toList, DocVal.str u.username),
       ("name".toList, DocVal.str u.name), ("avatar".toList, DocVal.str u.avatar),
       ("location".toList, DocVal.str u.location), ("tz".toList, DocVal.str u.tz),
       ("isRegistered".toList, DocVal.bool (isRegistered u))] := fun _ => rfl
  refine ⟨rfl, rfl, rfl, hreg self, ?_, rfl, rfl⟩
  rw [e1 self, e1]
  cases hh : hashed <;> cases hs : self.hashedPassword <;> simp [isRegistered, hh, hs]

end TimezoneIO
